import Mathlib

/-!
Verification of the rbatis CRUD statement builders (`src/crud.rs`).

The development shallowly embeds the builder functions of `crud.rs`:
entities are modelled by their `serde_json` serialization (`Json`), the
ordered field-to-value map of an entity is a `List (String × Json)`, and
each builder returns the `(sql, args)` pair it hands to the execution
collaborator (`exec_prepare` / `fetch_prepare`), or an error.  Collaborators
that live in the repository but outside `src/` (the dialect descriptor of
rbatis-core, the Predicate Builder `Wrapper`, the soft-delete plugin and the
`Rbatis` handle) are modelled from the specification; each such definition
is marked `Modelled from the spec`.
-/

set_option autoImplicit false

/-- Model of `serde_json::Value`: the dynamically typed value stored in an
entity's field-to-value map.  Object fields are kept as an ordered
association list, matching the map iteration order that drives column and
placeholder ordering. -/
inductive Json where
  | null : Json
  | str : String → Json
  | num : Int → Json
  | jbool : Bool → Json
  | arr : List Json → Json
  | obj : List (String × Json) → Json

/-- Model of `serde_json::Value::is_null`. -/
def Json.isNull : Json → Bool
  | .null => true
  | _ => false

/-- Model of `serde_json::Value::is_string`. -/
def Json.isString : Json → Bool
  | .str _ => true
  | _ => false

/-- Model of Rust `str::contains(pat)` on character lists: some position of
`s` starts with `pat`. -/
def containsSubList (s pat : List Char) : Bool :=
  match s with
  | [] => pat.isEmpty
  | _ :: rest => pat.isPrefixOf s || containsSubList rest pat

/-- Model of Rust `str::contains(pat)`. -/
def containsSub (s pat : String) : Bool :=
  containsSubList s.data pat.data

/-- Model of Rust `String::pop`: drop the last character (no-op on ""). -/
def strPop (s : String) : String :=
  ⟨s.data.dropLast⟩

/-- Concatenation of a list of strings (model of repeated `push_str`). -/
def strJoin : List String → String
  | [] => ""
  | s :: rest => s ++ strJoin rest

/-- Comma-join used to describe the builders' output fragments. -/
def joinComma : List String → String
  | [] => ""
  | [s] => s
  | s :: rest => s ++ "," ++ joinComma rest

/-- Model of Rust `str::trim_start`: drop leading whitespace. -/
def trim_start (s : String) : String :=
  ⟨s.data.dropWhile fun c => c.isWhitespace⟩

/-- Fuel-bounded repeated prefix stripping on character lists (model of Rust
`str::trim_start_matches`, which removes *all* successive occurrences of the
prefix). -/
def dropPrefixAll : Nat → List Char → List Char → List Char
  | 0, s, _ => s
  | n + 1, s, pat =>
    if pat ≠ [] ∧ pat.isPrefixOf s then dropPrefixAll n (s.drop pat.length) pat else s

/-- Model of Rust `str::trim_start_matches(pat)`. -/
def trimStartMatches (s pat : String) : String :=
  ⟨dropPrefixAll s.data.length s.data pat.data⟩

/-- Fuel-bounded repeated suffix stripping on character lists (model of Rust
`str::trim_end_matches`). -/
def dropSuffixAll : Nat → List Char → List Char → List Char
  | 0, s, _ => s
  | n + 1, s, pat =>
    if pat ≠ [] ∧ pat.isSuffixOf s then dropSuffixAll n (s.take (s.length - pat.length)) pat
    else s

/-- Model of Rust `str::trim_end_matches(pat)`. -/
def trimEndMatches (s pat : String) : String :=
  ⟨dropSuffixAll s.data.length s.data pat.data⟩

/-- Decimal digit characters of a natural number (fuel-bounded). -/
def natDigitsAux : Nat → Nat → List Char
  | 0, _ => []
  | fuel + 1, n =>
    if n < 10 then [Char.ofNat (48 + n)]
    else natDigitsAux fuel (n / 10) ++ [Char.ofNat (48 + n % 10)]

/-- Decimal rendering of a natural number, used for numbered placeholders. -/
def natStr (n : Nat) : String :=
  ⟨natDigitsAux (n + 1) n⟩

/-- Modelled from the spec: the Dialect Descriptor (rbatis-core `DriverType`,
not under `src/`).  One purely positional dialect and one numbered dialect,
as the spec's "numbered vs. positional" distinction requires. -/
inductive DriverType where
  | mysql : DriverType
  | postgres : DriverType

/-- Modelled from the spec: placeholder rendering for the `n`-th bound
parameter (`StmtConvert::stmt_convert` of rbatis-core, not under `src/`):
positional `?` for mysql, numbered `$n+1` for postgres. -/
def DriverType.stmt_convert : DriverType → Nat → String
  | .mysql, _ => " ? "
  | .postgres, n => " $" ++ natStr (n + 1) ++ " "

/-- Modelled from the spec: the dialect's date/time literal conversion
(`date_convert` of rbatis-core, not under `src/`), which may rewrite the SQL
fragment (for example wrapping the placeholder in a cast) and/or the bound
value; it renders exactly one placeholder for the current index. -/
def DriverType.date_convert (db : DriverType) (v : Json) (index : Nat) :
    Except String (String × Json) :=
  match db with
  | .mysql => .ok (DriverType.mysql.stmt_convert index, v)
  | .postgres => .ok ("cast(" ++ DriverType.postgres.stmt_convert index ++ "as timestamp)", v)

/-- The placeholder marker character of a dialect. -/
def placeholderChar : DriverType → Char
  | .mysql => '?'
  | .postgres => '$'

/-- Count of dialect placeholder markers occurring in a SQL string. -/
def countPH (db : DriverType) (s : String) : Nat :=
  s.data.count (placeholderChar db)

/-- Modelled from the spec: the Soft-Delete Policy, holding the flag column
name, the "not deleted" flag value and the "deleted" flag value
(`RbatisLogicDeletePlugin`, not under `src/`). -/
structure LogicDeletePlugin where
  column : String
  un_deleted : Int
  deleted : Int

/-- Modelled from the spec: the policy's logical-delete statement, a pure
function of (table name, column list, where-clause) producing an UPDATE that
sets the flag column (`LogicDelete::create_sql`, not under `src/`). -/
def LogicDeletePlugin.create_sql (p : LogicDeletePlugin) (_db : DriverType) (table : String)
    (_columns : List String) (where_sql : String) : String :=
  "UPDATE " ++ table ++ " SET " ++ p.column ++ " = " ++ toString p.deleted ++ where_sql

/-- Modelled from the spec: the Predicate Builder (`crate::wrapper::Wrapper`,
not under `src/`), exposing a WHERE-clause fragment `sql` and a positionally
aligned argument vector `args`. -/
structure Wrapper where
  driver : DriverType
  sql : String
  args : List Json

/-- Modelled from the spec: `Wrapper::new` starts from an empty fragment. -/
def Wrapper.new (driver : DriverType) : Wrapper :=
  ⟨driver, "", []⟩

/-- Modelled from the spec: the Predicate Builder's equality-predicate
constructor, appending `column = <placeholder>` and binding the value. -/
def Wrapper.eq (w : Wrapper) (column : String) (v : Json) : Wrapper :=
  { w with
    sql := w.sql ++ column ++ " = " ++ w.driver.stmt_convert w.args.length
    args := w.args ++ [v] }

/-- Modelled from the spec: the Predicate Builder's set-membership
constructor, appending `column in (<placeholders>)` and binding the values. -/
def Wrapper.in_array (w : Wrapper) (column : String) (vs : List Json) : Wrapper :=
  { w with
    sql := w.sql ++ column ++ " in (" ++
      joinComma ((List.range vs.length).map fun i => w.driver.stmt_convert (w.args.length + i)) ++ ")"
    args := w.args ++ vs }

/-- Modelled from the spec: the Predicate Builder's validation step. -/
def Wrapper.check (w : Wrapper) : Except String Wrapper :=
  .ok w

/-- Modelled from the spec: the Predicate Builder's chaining operation used
by `update_by_wrapper`, appending the right wrapper's fragment and args. -/
def Wrapper.right_link_wrapper (w other : Wrapper) : Wrapper :=
  { w with sql := w.sql ++ other.sql, args := w.args ++ other.args }

/-- Modelled from the spec: the data-access handle, holding the dialect and
the optional Soft-Delete Policy (`Rbatis`, not under `src/`). -/
structure Rbatis where
  driver : DriverType
  logic_plugin : Option LogicDeletePlugin

/-- Modelled from the spec: `driver_type()` of the execution collaborator,
returning the handle's dialect. -/
def Rbatis.driver_type (rb : Rbatis) : Except String DriverType :=
  .ok rb.driver

/-- The observable outcome of a builder: either no statement was issued (the
execution collaborator is never invoked, with the returned row count), or
one `(sql, args)` pair is handed to the collaborator. -/
inductive ExecResult where
  | noStatement : Nat → ExecResult
  | statement : String → List Json → ExecResult

/-- Embedding of `CRUDEnable::make_field_value_map`: serialize the entity and
require an object-shaped value, keeping the ordered field map. -/
def make_field_value_map (_db : DriverType) (arg : Json) :
    Except String (List (String × Json)) :=
  match arg with
  | .null => .error "[rbaits] to_value_map() fail!"
  | .obj m => .ok m
  | _ => .error "[rbaits] to_value_map() fail,data is not an object!"

/-- Embedding of `CRUDEnable::make_fields`: join the map keys with commas
(the source appends `k ++ ","` per key, then `trim_end_matches(",")`). -/
def make_fields (map : List (String × Json)) : Except String String :=
  .ok (trimEndMatches (strJoin (map.map fun kv => kv.fst ++ ",")) ",")

/-- Loop body of `CRUDEnable::make_sql_arg`: per map entry, either the
temporal-column conversion or the dialect's placeholder, pushing one bound
value and incrementing the running index once per column. -/
def make_sql_arg_loop (db : DriverType) (entries : List (String × Json)) (index : Nat)
    (sql : String) (arr : List Json) : Except String (String × List Json × Nat) :=
  match entries with
  | [] => .ok (sql, arr, index)
  | (k, v) :: rest =>
    if (containsSub k "time" || containsSub k "date") && v.isString then
      match db.date_convert v index with
      | .error e => .error e
      | .ok nv => make_sql_arg_loop db rest (index + 1) (sql ++ nv.fst ++ ",") (arr ++ [nv.snd])
    else
      make_sql_arg_loop db rest (index + 1) (sql ++ db.stmt_convert index ++ ",")
        (arr ++ [v])

/-- Embedding of `CRUDEnable::make_sql_arg`: build the placeholder fragment
and argument vector for one row, then pop the trailing comma; the mutable
index of the source is threaded and returned. -/
def make_sql_arg (index : Nat) (db : DriverType) (map : List (String × Json)) :
    Except String (String × List Json × Nat) := do
  let r ← make_sql_arg_loop db map index "" []
  .ok (strPop r.fst, r.snd.fst, r.snd.snd)

/-- Embedding of `CRUD::save`: build
`INSERT INTO <table> (<columns>) VALUES (<placeholders>)` from one value map. -/
def save (rb : Rbatis) (table : String) (entity : Json) : Except String ExecResult := do
  let dt ← rb.driver_type
  let map ← make_field_value_map dt entity
  let r ← make_sql_arg 0 dt map
  let fields ← make_fields map
  .ok (.statement ("INSERT INTO " ++ table ++ " (" ++ fields ++ ") VALUES (" ++ r.fst ++ ")")
    r.snd.fst)

/-- Loop body of `CRUD::save_batch`: per entity, compute the value map, fill
the column list if still empty, append one `(<placeholders>),` group with the
running index, and extend the argument vector. -/
def save_batch_loop (db : DriverType) (xs : List Json) (value_arr : String)
    (arg_arr : List Json) (fields : String) (field_index : Nat) :
    Except String (String × List Json × String × Nat) :=
  match xs with
  | [] => .ok (value_arr, arg_arr, fields, field_index)
  | x :: rest => do
    let map ← make_field_value_map db x
    let fields ← if fields = "" then make_fields map else pure fields
    let r ← make_sql_arg field_index db map
    save_batch_loop db rest (value_arr ++ "(" ++ r.fst ++ "),") (arg_arr ++ r.snd.fst)
      fields r.snd.snd

/-- Embedding of `CRUD::save_batch`: empty input short-circuits to a zero row
count with no statement; otherwise one multi-row INSERT is built. -/
def save_batch (rb : Rbatis) (table : String) (args : List Json) :
    Except String ExecResult :=
  if args.isEmpty then .ok (.noStatement 0)
  else do
    let dt ← rb.driver_type
    let r ← save_batch_loop dt args "" [] "" 0
    .ok (.statement ("INSERT INTO " ++ table ++ " (" ++ r.snd.snd.fst ++ ") VALUES " ++
      strPop r.fst) r.snd.fst)

/-- Embedding of `make_where_sql`: trim leading whitespace, strip leading
`AND ` then `OR ` connectives, and wrap as ` WHERE <fragment> `. -/
def make_where_sql (arg : String) : String :=
  " WHERE " ++ trimStartMatches (trimStartMatches (trim_start arg) "AND ") "OR " ++ " "

/-- Embedding of `CRUD::remove_by_wrapper`: a physical DELETE without a
Soft-Delete Policy, the policy's UPDATE with one. -/
def remove_by_wrapper (rb : Rbatis) (table table_fields : String) (w : Wrapper) :
    Except String ExecResult := do
  let dt ← rb.driver_type
  match rb.logic_plugin with
  | some plugin =>
    .ok (.statement (plugin.create_sql dt table (table_fields.splitOn ",")
      (make_where_sql w.sql)) w.args)
  | none =>
    .ok (.statement ("DELETE FROM " ++ table ++ " " ++ make_where_sql w.sql) w.args)

/-- Embedding of `CRUD::remove_by_id`: the identifier's `Display` rendering
is formatted directly into the WHERE text and the argument vector is empty. -/
def remove_by_id (rb : Rbatis) (table table_fields : String) (id : String) :
    Except String ExecResult := do
  let dt ← rb.driver_type
  match rb.logic_plugin with
  | some plugin =>
    .ok (.statement (plugin.create_sql dt table (table_fields.splitOn ",")
      (" WHERE id = " ++ id)) [])
  | none =>
    .ok (.statement ("DELETE FROM " ++ table ++ " WHERE id = " ++ id) [])

/-- Loop body of `CRUD::update_by_wrapper`: per map entry skip null values
and the `id` column, otherwise append ` <k> = <placeholder>,` (the
placeholder index is the current argument count) and push the value. -/
def make_sets_loop (db : DriverType) (entries : List (String × Json)) (sets : String)
    (args : List Json) : String × List Json :=
  match entries with
  | [] => (sets, args)
  | (k, v) :: rest =>
    if v.isNull then make_sets_loop db rest sets args
    else if k = "id" then make_sets_loop db rest sets args
    else
      make_sets_loop db rest (sets ++ " " ++ k ++ " = " ++ db.stmt_convert args.length ++ ",")
        (args ++ [v])

/-- Embedding of `CRUD::update_by_wrapper`: build the SET clause from the
non-null, non-`id` fields, then chain the caller's predicate when non-empty. -/
def update_by_wrapper (rb : Rbatis) (table : String) (arg : Json) (w : Wrapper) :
    Except String ExecResult := do
  let dt ← rb.driver_type
  let map ← make_field_value_map dt arg
  let r := make_sets_loop dt map "" []
  let sets := strPop r.fst
  let wrapper : Wrapper := ⟨dt, "UPDATE " ++ table ++ " SET " ++ sets, r.snd⟩
  if w.sql = "" then
    .ok (.statement wrapper.sql wrapper.args)
  else do
    let wrapper := { wrapper with sql := wrapper.sql ++ " WHERE " }
    let wrapper ← (wrapper.right_link_wrapper w).check
    .ok (.statement wrapper.sql wrapper.args)

/-- Embedding of `CRUD::update_by_id`: require an `id` field in the value
map, then delegate to `update_by_wrapper` with an equality predicate on it. -/
def update_by_id (rb : Rbatis) (table : String) (arg : Json) :
    Except String ExecResult := do
  let dt ← rb.driver_type
  let args ← make_field_value_map dt arg
  match args.find? (fun kv => kv.fst == "id") with
  | none => .error "[rbaits] arg not have \"id\" field! "
  | some kv => update_by_wrapper rb table arg ((Wrapper.new rb.driver).eq "id" kv.snd)

/-- Embedding of `make_select_sql`: with a Soft-Delete Policy the not-deleted
predicate comes first and the caller's predicate is ANDed after it; without
one the caller's predicate, when non-empty, is the sole WHERE clause. -/
def make_select_sql (rb : Rbatis) (fields table : String) (w : Wrapper) :
    Except String String :=
  match rb.logic_plugin with
  | some plugin =>
    let where_sql := if w.sql = "" then w.sql else " AND " ++ w.sql
    .ok ("SELECT " ++ fields ++ " FROM " ++ table ++ " WHERE " ++ plugin.column ++ " = " ++
      toString plugin.un_deleted ++ " " ++ where_sql)
  | none =>
    let where_sql := if w.sql = "" then w.sql else " WHERE " ++ w.sql
    .ok ("SELECT " ++ fields ++ " FROM " ++ table ++ " " ++ where_sql)

/-- Embedding of `CRUD::fetch_by_wrapper`. -/
def fetch_by_wrapper (rb : Rbatis) (fields table : String) (w : Wrapper) :
    Except String ExecResult := do
  let sql ← make_select_sql rb fields table w
  .ok (.statement sql w.args)

/-- Embedding of `CRUD::fetch_by_id`: an equality predicate on `id`. -/
def fetch_by_id (rb : Rbatis) (fields table : String) (id : Json) :
    Except String ExecResult := do
  let dt ← rb.driver_type
  let w ← ((Wrapper.new dt).eq "id" id).check
  fetch_by_wrapper rb fields table w

/-- Embedding of `CRUD::list_by_wrapper`. -/
def list_by_wrapper (rb : Rbatis) (fields table : String) (w : Wrapper) :
    Except String ExecResult := do
  let sql ← make_select_sql rb fields table w
  .ok (.statement sql w.args)

/-- Embedding of `CRUD::list`: an empty predicate. -/
def list (rb : Rbatis) (fields table : String) : Except String ExecResult := do
  let dt ← rb.driver_type
  list_by_wrapper rb fields table (Wrapper.new dt)

/-- Embedding of `CRUD::list_by_ids`: a set-membership predicate on `id`. -/
def list_by_ids (rb : Rbatis) (fields table : String) (ids : List Json) :
    Except String ExecResult := do
  let dt ← rb.driver_type
  let w ← ((Wrapper.new dt).in_array "id" ids).check
  list_by_wrapper rb fields table w

/-- Embedding of `CRUD::fetch_page_by_wrapper`: the same SELECT construction,
forwarded to the paginated fetch (pagination itself is the collaborator's). -/
def fetch_page_by_wrapper (rb : Rbatis) (fields table : String) (w : Wrapper)
    (_page : Nat) : Except String ExecResult := do
  let sql ← make_select_sql rb fields table w
  .ok (.statement sql w.args)

/-- Specification-side description of one `make_sql_arg` entry: the fragment
and (possibly converted) bound value produced for one column at one index. -/
def entry_frag (db : DriverType) (index : Nat) (k : String) (v : Json) : String × Json :=
  if (containsSub k "time" || containsSub k "date") && v.isString then
    match db.date_convert v index with
    | .ok nv => nv
    | .error _ => ("", Json.null)
  else (db.stmt_convert index, v)

/-- Specification-side description of one row's fragments: `entry_frag` for
each map entry with the running index. -/
def row_frags (db : DriverType) (index : Nat) : List (String × Json) → List (String × Json)
  | [] => []
  | (k, v) :: rest => entry_frag db index k v :: row_frags db (index + 1) rest

/-- Specification-side description of the batch groups: one
(placeholder-group, row-arguments) pair per entity, the index advancing by
each row's width and never resetting. -/
def batch_groups (db : DriverType) (index : Nat) :
    List (List (String × Json)) → List (String × List Json)
  | [] => []
  | m :: rest =>
    (joinComma ((row_frags db index m).map Prod.fst), (row_frags db index m).map Prod.snd)
      :: batch_groups db (index + m.length) rest

/-- Specification-side description of the SET-clause items of
`update_by_wrapper`: ` <k> = <placeholder i>` for the retained fields. -/
def sets_items (db : DriverType) (i : Nat) : List (String × Json) → List String
  | [] => []
  | (k, _) :: rest => (" " ++ k ++ " = " ++ db.stmt_convert i) :: sets_items db (i + 1) rest

/-- The fields retained by `update_by_wrapper`'s SET clause: value not null
and key not the identifier column. -/
def set_filter (m : List (String × Json)) : List (String × Json) :=
  m.filter fun kv => !kv.snd.isNull && !(kv.fst == "id")

/-- Repetition of a character-list pattern, used to state what
`trimStartMatches` removed. -/
def repList (pat : List Char) : Nat → List Char
  | 0 => []
  | n + 1 => pat ++ repList pat n

/-! ## Basic string and list facts -/

theorem strData_append (a b : String) : (a ++ b).data = a.data ++ b.data :=
  String.data_append a b

theorem strAppend_empty (s : String) : s ++ "" = s := by
  cases s
  simp [String.ext_iff]

theorem strEmpty_append (s : String) : "" ++ s = s := by
  cases s
  simp [String.ext_iff, String.data_append]

theorem strAppend_assoc (a b c : String) : a ++ b ++ c = a ++ (b ++ c) := by
  simp [String.ext_iff, String.data_append]

theorem strJoin_cons (x : String) (xs : List String) :
    strJoin (x :: xs) = x ++ strJoin xs := rfl

theorem strJoin_comma_data_ne_nil (x : String) (xs : List String) :
    (strJoin ((x :: xs).map fun s => s ++ ",")).data ≠ [] := by
  simp [strJoin, strData_append]

theorem strPop_strJoin_comma : ∀ xs : List String,
    strPop (strJoin (xs.map fun x => x ++ ",")) = joinComma xs := by
  intro xs
  induction xs with
  | nil => rfl
  | cons x rest ih =>
    cases rest with
    | nil =>
      show strPop ((x ++ ",") ++ "") = x
      rw [strAppend_empty]
      apply String.ext
      simp [strPop, strData_append]
    | cons y ys =>
      show strPop ((x ++ ",") ++ strJoin ((y :: ys).map fun s => s ++ ",")) =
        x ++ "," ++ joinComma (y :: ys)
      apply String.ext
      have hne := strJoin_comma_data_ne_nil y ys
      have ihd := congrArg String.data ih
      simp only [strPop] at ihd
      show ((x ++ ",") ++ strJoin ((y :: ys).map fun s => s ++ ",")).data.dropLast = _
      rw [strData_append, List.dropLast_append_of_ne_nil _ hne, ihd]
      simp [strData_append, List.append_assoc]

/-! ## Placeholder counting -/

theorem countPH_append (db : DriverType) (a b : String) :
    countPH db (a ++ b) = countPH db a + countPH db b := by
  simp [countPH, strData_append]

theorem countPH_comma (db : DriverType) : countPH db "," = 0 := by
  cases db <;> decide

theorem countPH_joinComma (db : DriverType) : ∀ xs : List String,
    countPH db (joinComma xs) = (xs.map (countPH db)).sum := by
  intro xs
  induction xs with
  | nil => cases db <;> decide
  | cons x rest ih =>
    cases rest with
    | nil => simp [joinComma]
    | cons y ys =>
      show countPH db (x ++ "," ++ joinComma (y :: ys)) = _
      rw [countPH_append, countPH_append, countPH_comma, ih]
      simp

theorem countPH_strJoin (db : DriverType) : ∀ xs : List String,
    countPH db (strJoin xs) = (xs.map (countPH db)).sum := by
  intro xs
  induction xs with
  | nil => cases db <;> decide
  | cons x rest ih =>
    rw [strJoin_cons, countPH_append, ih]
    simp

theorem digit_count_dollar (k : Nat) (hk : k < 10) : ([Char.ofNat (48 + k)].count '$') = 0 := by
  interval_cases k <;> decide

theorem natDigitsAux_count_dollar : ∀ (fuel n : Nat), (natDigitsAux fuel n).count '$' = 0 := by
  intro fuel
  induction fuel with
  | zero => intro n; rfl
  | succ f ih =>
    intro n
    unfold natDigitsAux
    split
    · exact digit_count_dollar n (by assumption)
    · rw [List.count_append, ih, digit_count_dollar (n % 10) (Nat.mod_lt _ (by decide))]

theorem countPH_natStr (n : Nat) : countPH DriverType.postgres (natStr n) = 0 := by
  simp [countPH, natStr, placeholderChar, natDigitsAux_count_dollar]

theorem countPH_stmt_convert (db : DriverType) (i : Nat) :
    countPH db (db.stmt_convert i) = 1 := by
  cases db with
  | mysql =>
    show countPH DriverType.mysql " ? " = 1
    decide
  | postgres =>
    show countPH DriverType.postgres (" $" ++ natStr (i + 1) ++ " ") = 1
    rw [countPH_append, countPH_append, countPH_natStr]
    decide

theorem countPH_entry_frag (db : DriverType) (i : Nat) (k : String) (v : Json) :
    countPH db (entry_frag db i k v).fst = 1 := by
  unfold entry_frag
  split
  · cases db with
    | mysql => exact countPH_stmt_convert DriverType.mysql i
    | postgres =>
      show countPH DriverType.postgres ("cast(" ++ DriverType.postgres.stmt_convert i ++ "as timestamp)") = 1
      rw [countPH_append, countPH_append, countPH_stmt_convert]
      decide
  · exact countPH_stmt_convert db i

/-! ## Characterization of `make_sql_arg` -/

theorem date_convert_eq_entry_frag (db : DriverType) (v : Json) (i : Nat) (k : String)
    (hc : ((containsSub k "time" || containsSub k "date") && v.isString) = true) :
    db.date_convert v i = Except.ok (entry_frag db i k v) := by
  cases db <;> simp [DriverType.date_convert, entry_frag, hc]

theorem make_sql_arg_loop_spec (db : DriverType) (entries : List (String × Json)) :
    ∀ (index : Nat) (sql : String) (arr : List Json),
    make_sql_arg_loop db entries index sql arr =
      .ok (sql ++ strJoin ((row_frags db index entries).map fun f => f.fst ++ ","),
           arr ++ (row_frags db index entries).map Prod.snd,
           index + entries.length) := by
  induction entries with
  | nil =>
    intro index sql arr
    simp [make_sql_arg_loop, row_frags, strJoin, strAppend_empty]
  | cons kv rest ih =>
    intro index sql arr
    obtain ⟨k, v⟩ := kv
    show make_sql_arg_loop db ((k, v) :: rest) index sql arr = _
    unfold make_sql_arg_loop
    by_cases hc : ((containsSub k "time" || containsSub k "date") && v.isString) = true
    · rw [if_pos hc, date_convert_eq_entry_frag db v index k hc]
      show make_sql_arg_loop db rest (index + 1)
          (sql ++ (entry_frag db index k v).fst ++ ",") (arr ++ [(entry_frag db index k v).snd]) = _
      rw [ih]
      show Except.ok _ = Except.ok _
      simp only [Except.ok.injEq, Prod.mk.injEq, row_frags]
      refine ⟨?_, ?_, ?_⟩
      · simp [strJoin_cons, strAppend_assoc]
      · simp
      · simp only [List.length_cons]
        omega
    · rw [if_neg hc]
      rw [ih]
      show Except.ok _ = Except.ok _
      simp only [Except.ok.injEq, Prod.mk.injEq, row_frags]
      have hef : entry_frag db index k v = (db.stmt_convert index, v) := by
        unfold entry_frag
        rw [if_neg hc]
      refine ⟨?_, ?_, ?_⟩
      · rw [hef]; simp [strJoin_cons, strAppend_assoc]
      · rw [hef]; simp
      · simp only [List.length_cons]
        omega

theorem make_sql_arg_spec (index : Nat) (db : DriverType) (map : List (String × Json)) :
    make_sql_arg index db map =
      .ok (joinComma ((row_frags db index map).map Prod.fst),
           (row_frags db index map).map Prod.snd, index + map.length) := by
  show (do
    let r ← make_sql_arg_loop db map index "" []
    Except.ok (strPop r.fst, r.snd.fst, r.snd.snd) : Except String _) = _
  rw [make_sql_arg_loop_spec]
  show Except.ok _ = Except.ok _
  simp only [Except.ok.injEq, Prod.mk.injEq]
  refine ⟨?_, by simp [strEmpty_append], trivial⟩
  rw [strEmpty_append]
  have : ((row_frags db index map).map fun f => f.fst ++ ",") =
      ((row_frags db index map).map Prod.fst).map fun x => x ++ "," := by
    simp [List.map_map]
  rw [this, strPop_strJoin_comma]

theorem row_frags_length (db : DriverType) : ∀ (m : List (String × Json)) (i : Nat),
    (row_frags db i m).length = m.length := by
  intro m
  induction m with
  | nil => intro i; rfl
  | cons kv rest ih =>
    intro i
    obtain ⟨k, v⟩ := kv
    show (entry_frag db i k v :: row_frags db (i + 1) rest).length = rest.length + 1
    simp [ih]

theorem countPH_row_frags (db : DriverType) : ∀ (m : List (String × Json)) (i : Nat),
    ∀ f ∈ row_frags db i m, countPH db f.fst = 1 := by
  intro m
  induction m with
  | nil => intro i f hf; cases hf
  | cons kv rest ih =>
    intro i f hf
    obtain ⟨k, v⟩ := kv
    rw [show row_frags db i ((k, v) :: rest) = entry_frag db i k v :: row_frags db (i + 1) rest from rfl,
      List.mem_cons] at hf
    rcases hf with hf | hf
    · rw [hf]; exact countPH_entry_frag db i k v
    · exact ih (i + 1) f hf

theorem count_dropSuffixAll_le (c : Char) : ∀ (fuel : Nat) (s pat : List Char),
    (dropSuffixAll fuel s pat).count c ≤ s.count c := by
  intro fuel
  induction fuel with
  | zero => intro s pat; exact le_rfl
  | succ f ih =>
    intro s pat
    unfold dropSuffixAll
    split
    · exact le_trans (ih _ _) ((List.take_sublist _ _).count_le c)
    · exact le_rfl

theorem countPH_make_fields (db : DriverType) (m : List (String × Json))
    (hkeys : ∀ k ∈ m.map Prod.fst, countPH db k = 0) :
    countPH db (trimEndMatches (strJoin (m.map fun kv => kv.fst ++ ",")) ",") = 0 := by
  have hj : countPH db (strJoin (m.map fun kv => kv.fst ++ ",")) = 0 := by
    rw [countPH_strJoin]
    apply List.sum_eq_zero
    intro x hx
    rw [List.map_map, List.mem_map] at hx
    obtain ⟨kv, hkv, hx⟩ := hx
    rw [← hx]
    show countPH db (kv.fst ++ ",") = 0
    rw [countPH_append, countPH_comma, hkeys kv.fst (List.mem_map_of_mem _ hkv)]
  have hle := count_dropSuffixAll_le (placeholderChar db)
    ((strJoin (m.map fun kv => kv.fst ++ ",")).data.length)
    ((strJoin (m.map fun kv => kv.fst ++ ",")).data) (",".data)
  unfold countPH at hj ⊢
  show (dropSuffixAll (strJoin (m.map fun kv => kv.fst ++ ",")).data.length
      (strJoin (m.map fun kv => kv.fst ++ ",")).data (",".data)).count (placeholderChar db) = 0
  omega

theorem countPH_ofLit (db : DriverType) (s : String) (h1 : s.data.count '?' = 0)
    (h2 : s.data.count '$' = 0) : countPH db s = 0 := by
  cases db <;> simpa [countPH, placeholderChar]

/-- C1: for every entity whose serialization yields a non-empty object value
map, `save` builds an INSERT whose placeholder count equals the column count,
whose argument list length equals the placeholder count, and whose
placeholders and arguments are produced pairwise from the value map in its
iteration order (`row_frags`, one placeholder and one argument per entry), so
their left-to-right orders match. -/
theorem save_placeholder_alignment (rb : Rbatis) (table : String)
    (m : List (String × Json)) (_hm : m ≠ [])
    (htab : countPH rb.driver table = 0)
    (hkeys : ∀ k ∈ m.map Prod.fst, countPH rb.driver k = 0) :
    ∃ fstr,
      make_fields m = Except.ok fstr ∧
      save rb table (Json.obj m) =
        Except.ok (ExecResult.statement
          ("INSERT INTO " ++ table ++ " (" ++ fstr ++ ") VALUES (" ++
            joinComma ((row_frags rb.driver 0 m).map Prod.fst) ++ ")")
          ((row_frags rb.driver 0 m).map Prod.snd)) ∧
      ((row_frags rb.driver 0 m).map Prod.snd).length = m.length ∧
      countPH rb.driver (joinComma ((row_frags rb.driver 0 m).map Prod.fst)) = m.length ∧
      (∀ f ∈ row_frags rb.driver 0 m, countPH rb.driver f.fst = 1) ∧
      countPH rb.driver ("INSERT INTO " ++ table ++ " (" ++ fstr ++ ") VALUES (" ++
        joinComma ((row_frags rb.driver 0 m).map Prod.fst) ++ ")") = m.length := by
  have hjc : countPH rb.driver (joinComma ((row_frags rb.driver 0 m).map Prod.fst)) = m.length := by
    rw [countPH_joinComma, List.map_map]
    have hall : ∀ b ∈ List.map (countPH rb.driver ∘ Prod.fst) (row_frags rb.driver 0 m), b = 1 := by
      intro b hb
      rw [List.mem_map] at hb
      obtain ⟨f, hf, hb⟩ := hb
      rw [← hb]
      exact countPH_row_frags rb.driver m 0 f hf
    have hsum := congrArg List.sum (List.eq_replicate_of_mem hall)
    rw [List.sum_replicate, smul_eq_mul, mul_one, List.length_map, row_frags_length] at hsum
    exact hsum
  refine ⟨trimEndMatches (strJoin (m.map fun kv => kv.fst ++ ",")) ",", by rfl, ?_, ?_, hjc, ?_, ?_⟩
  · have h1 : save rb table (Json.obj m) = (do
        let r ← make_sql_arg 0 rb.driver m
        let fields ← make_fields m
        Except.ok (ExecResult.statement
          ("INSERT INTO " ++ table ++ " (" ++ fields ++ ") VALUES (" ++ r.fst ++ ")")
          r.snd.fst) : Except String ExecResult) := rfl
    rw [h1, make_sql_arg_spec]
    rfl
  · rw [List.length_map, row_frags_length]
  · exact countPH_row_frags rb.driver m 0
  · rw [countPH_append, countPH_append, countPH_append, countPH_append, countPH_append,
      countPH_append, hjc, htab, countPH_make_fields rb.driver m hkeys,
      countPH_ofLit rb.driver "INSERT INTO " (by decide) (by decide),
      countPH_ofLit rb.driver " (" (by decide) (by decide),
      countPH_ofLit rb.driver ") VALUES (" (by decide) (by decide),
      countPH_ofLit rb.driver ")" (by decide) (by decide)]
    omega

theorem save_placeholder_alignment_witness :
    ∃ fstr,
      make_fields [("id", Json.str "12312"), ("status", Json.num 1)] = Except.ok fstr ∧
      save ⟨DriverType.mysql, none⟩ "biz_activity"
          (Json.obj [("id", Json.str "12312"), ("status", Json.num 1)]) =
        Except.ok (ExecResult.statement
          ("INSERT INTO " ++ "biz_activity" ++ " (" ++ fstr ++ ") VALUES (" ++
            joinComma ((row_frags DriverType.mysql 0
              [("id", Json.str "12312"), ("status", Json.num 1)]).map Prod.fst) ++ ")")
          ((row_frags DriverType.mysql 0
            [("id", Json.str "12312"), ("status", Json.num 1)]).map Prod.snd)) ∧
      ((row_frags DriverType.mysql 0
        [("id", Json.str "12312"), ("status", Json.num 1)]).map Prod.snd).length =
        ([("id", Json.str "12312"), ("status", Json.num 1)] : List (String × Json)).length ∧
      countPH DriverType.mysql (joinComma ((row_frags DriverType.mysql 0
        [("id", Json.str "12312"), ("status", Json.num 1)]).map Prod.fst)) =
        ([("id", Json.str "12312"), ("status", Json.num 1)] : List (String × Json)).length ∧
      (∀ f ∈ row_frags DriverType.mysql 0 [("id", Json.str "12312"), ("status", Json.num 1)],
        countPH DriverType.mysql f.fst = 1) ∧
      countPH DriverType.mysql ("INSERT INTO " ++ "biz_activity" ++ " (" ++ fstr ++
        ") VALUES (" ++ joinComma ((row_frags DriverType.mysql 0
          [("id", Json.str "12312"), ("status", Json.num 1)]).map Prod.fst) ++ ")") =
        ([("id", Json.str "12312"), ("status", Json.num 1)] : List (String × Json)).length :=
  save_placeholder_alignment ⟨DriverType.mysql, none⟩ "biz_activity"
    [("id", Json.str "12312"), ("status", Json.num 1)]
    (List.cons_ne_nil _ _) (by decide) (by decide)

/-- C9: `save_batch` on an empty slice returns a success with row count 0 and
issues no SQL statement: the execution collaborator is never invoked. -/
theorem save_batch_empty_no_statement (rb : Rbatis) (table : String) :
    save_batch rb table [] = Except.ok (ExecResult.noStatement 0) := rfl

/-- C5 counterexample: an entity serializing to an object with zero fields
does not make `save` fail; `save` succeeds and hands the empty-column
statement `INSERT INTO biz_activity () VALUES ()` with an empty argument list
to the execution collaborator, so no `EmptyFieldSet`-style error exists. -/
theorem save_empty_fieldset_counterexample :
    save ⟨DriverType.mysql, none⟩ "biz_activity" (Json.obj []) =
      Except.ok (ExecResult.statement "INSERT INTO biz_activity () VALUES ()" []) := by
  rfl

theorem insert_empty_concat (table : String) :
    "INSERT INTO " ++ table ++ " (" ++ "" ++ ") VALUES (" ++ "" ++ ")" =
      "INSERT INTO " ++ table ++ " () VALUES ()" := by
  apply String.ext
  simp only [strData_append, List.append_assoc]
  congr 1

/-- C5 amended: for every entity that serializes to an object with zero
fields, `save` does not fail; it builds the empty-column INSERT
`INSERT INTO <table> () VALUES ()` with an empty argument list and issues it. -/
theorem save_empty_fieldset_builds_empty_insert (rb : Rbatis) (table : String) :
    save rb table (Json.obj []) =
      Except.ok (ExecResult.statement ("INSERT INTO " ++ table ++ " () VALUES ()") []) := by
  have h1 : save rb table (Json.obj []) =
      Except.ok (ExecResult.statement
        ("INSERT INTO " ++ table ++ " (" ++ "" ++ ") VALUES (" ++ "" ++ ")") []) := rfl
  rw [h1, insert_empty_concat]

/-! ## Prefix and substring facts -/

theorem isPrefixOf_self (l : List Char) : l.isPrefixOf l = true := by
  induction l with
  | nil => rfl
  | cons a as ih => simp [List.isPrefixOf, ih]

theorem containsSubList_append_right (a b : List Char) :
    containsSubList (a ++ b) b = true := by
  induction a with
  | nil =>
    show containsSubList b b = true
    cases b with
    | nil => rfl
    | cons c cs =>
      show ((c :: cs).isPrefixOf (c :: cs) || containsSubList cs (c :: cs)) = true
      rw [isPrefixOf_self, Bool.true_or]
  | cons c a' ih =>
    show (b.isPrefixOf (c :: (a' ++ b)) || containsSubList (a' ++ b) b) = true
    rw [ih, Bool.or_true]

theorem containsSub_append_right (a b : String) : containsSub (a ++ b) b = true := by
  unfold containsSub
  rw [strData_append]
  exact containsSubList_append_right a.data b.data

theorem isPrefixOf_false_of_head_ne (a b : Char) (as bs : List Char) (h : (a == b) = false) :
    (a :: as).isPrefixOf (b :: bs) = false := by
  show (a == b && as.isPrefixOf bs) = false
  rw [h, Bool.false_and]

theorem delete_not_prefixOf_update (s : String) :
    "DELETE".data.isPrefixOf ("UPDATE " ++ s).data = false := by
  rw [strData_append]
  show ('D' :: "ELETE".data).isPrefixOf ('U' :: ("PDATE ".data ++ s.data)) = false
  exact isPrefixOf_false_of_head_ne _ _ _ _ (by decide)

/-- C10: `remove_by_id` embeds the identifier's textual rendering directly in
the WHERE text of the SQL it builds and always passes an empty argument
vector; the builder itself renders no placeholder (the placeholder count of
the DELETE text is exactly the count contributed by the `table` and `id`
texts themselves). -/
theorem remove_by_id_inlines_identifier (rb : Rbatis) (table tfields id : String) :
    remove_by_id rb table tfields id =
      Except.ok (ExecResult.statement
        (match rb.logic_plugin with
         | some plugin =>
            plugin.create_sql rb.driver table (tfields.splitOn ",") (" WHERE id = " ++ id)
         | none => "DELETE FROM " ++ table ++ " WHERE id = " ++ id) []) ∧
    containsSub ("DELETE FROM " ++ table ++ " WHERE id = " ++ id) id = true ∧
    containsSub (" WHERE id = " ++ id) id = true ∧
    countPH rb.driver ("DELETE FROM " ++ table ++ " WHERE id = " ++ id) =
      countPH rb.driver table + countPH rb.driver id := by
  refine ⟨?_, containsSub_append_right _ _, containsSub_append_right _ _, ?_⟩
  · rcases rb with ⟨driver, plugin⟩
    cases plugin <;> rfl
  · rw [countPH_append, countPH_append, countPH_append,
      countPH_ofLit rb.driver "DELETE FROM " (by decide) (by decide),
      countPH_ofLit rb.driver " WHERE id = " (by decide) (by decide)]
    omega

/-- C4: without a Soft-Delete Policy, `remove_by_wrapper` and `remove_by_id`
issue a `DELETE FROM` statement; with one configured, they issue exactly the
statement the policy produces from the same table name, column list and
WHERE clause, and that statement is an UPDATE, never a DELETE. -/
theorem remove_delegates_soft_delete (rb : Rbatis) (table tfields : String) (w : Wrapper)
    (id : String) (p : LogicDeletePlugin) :
    remove_by_wrapper rb table tfields w =
      Except.ok (ExecResult.statement
        (match rb.logic_plugin with
         | some plugin =>
            plugin.create_sql rb.driver table (tfields.splitOn ",") (make_where_sql w.sql)
         | none => "DELETE FROM " ++ table ++ " " ++ make_where_sql w.sql) w.args) ∧
    remove_by_id rb table tfields id =
      Except.ok (ExecResult.statement
        (match rb.logic_plugin with
         | some plugin =>
            plugin.create_sql rb.driver table (tfields.splitOn ",") (" WHERE id = " ++ id)
         | none => "DELETE FROM " ++ table ++ " WHERE id = " ++ id) []) ∧
    (∃ rest, (p.create_sql rb.driver table (tfields.splitOn ",") (make_where_sql w.sql)).data =
      "UPDATE ".data ++ rest) ∧
    "DELETE".data.isPrefixOf
      (p.create_sql rb.driver table (tfields.splitOn ",") (make_where_sql w.sql)).data = false := by
  have hassoc : p.create_sql rb.driver table (tfields.splitOn ",") (make_where_sql w.sql) =
      "UPDATE " ++ (table ++ " SET " ++ p.column ++ " = " ++ toString p.deleted ++
        make_where_sql w.sql) := by
    show "UPDATE " ++ table ++ " SET " ++ p.column ++ " = " ++ toString p.deleted ++
      make_where_sql w.sql = _
    simp [strAppend_assoc]
  refine ⟨?_, ?_, ?_, ?_⟩
  · rcases rb with ⟨driver, plugin⟩
    cases plugin <;> rfl
  · rcases rb with ⟨driver, plugin⟩
    cases plugin <;> rfl
  · refine ⟨(table ++ " SET " ++ p.column ++ " = " ++ toString p.deleted ++
      make_where_sql w.sql).data, ?_⟩
    rw [hassoc, strData_append]
  · rw [hassoc]
    exact delete_not_prefixOf_update _

/-- C7: `update_by_id` fails with the missing-identifier error and issues no
statement exactly when the entity's value map lacks an `id` field; when the
field is present it delegates to `update_by_wrapper` with a predicate
equating the identifier column to the extracted id value (the predicate's
fragment is `id = <placeholder>` and its sole bound argument is that value). -/
theorem update_by_id_requires_identifier (rb : Rbatis) (table : String)
    (m : List (String × Json)) :
    update_by_id rb table (Json.obj m) =
      (match m.find? (fun kv => kv.fst == "id") with
       | none => Except.error "[rbaits] arg not have \"id\" field! "
       | some kv =>
          update_by_wrapper rb table (Json.obj m) ((Wrapper.new rb.driver).eq "id" kv.snd)) ∧
    (∀ v : Json, ((Wrapper.new rb.driver).eq "id" v).sql = "id = " ++ rb.driver.stmt_convert 0) ∧
    (∀ v : Json, ((Wrapper.new rb.driver).eq "id" v).args = [v]) := by
  refine ⟨rfl, ?_, fun v => rfl⟩
  intro v
  show "" ++ "id" ++ " = " ++ rb.driver.stmt_convert 0 = "id = " ++ rb.driver.stmt_convert 0
  rw [strEmpty_append]
  have h : "id" ++ " = " = "id = " := by decide
  rw [h]

/-- C3: with a configured Soft-Delete Policy, every SELECT built by
`make_select_sql` (used by `fetch_by_wrapper`, `fetch_by_id`, `list`,
`list_by_wrapper`, `list_by_ids` and `fetch_page_by_wrapper`) places the
policy's not-deleted predicate first in the WHERE clause and ANDs the
caller's predicate after it (only the not-deleted predicate appears when the
caller's predicate is empty); without a policy the caller's non-empty
predicate is the sole WHERE clause and an empty predicate appends no WHERE
clause at all. -/
theorem select_soft_delete_predicate_first (rb : Rbatis) (fields table : String) (w : Wrapper)
    (id : Json) (ids : List Json) (page : Nat) :
    ∃ sql,
      make_select_sql rb fields table w = Except.ok sql ∧
      sql = (match rb.logic_plugin with
        | some plugin =>
          "SELECT " ++ fields ++ " FROM " ++ table ++ " WHERE " ++ plugin.column ++ " = " ++
            toString plugin.un_deleted ++ " " ++ (if w.sql = "" then "" else " AND " ++ w.sql)
        | none =>
          "SELECT " ++ fields ++ " FROM " ++ table ++ " " ++
            (if w.sql = "" then "" else " WHERE " ++ w.sql)) ∧
      fetch_by_wrapper rb fields table w = Except.ok (ExecResult.statement sql w.args) ∧
      list_by_wrapper rb fields table w = Except.ok (ExecResult.statement sql w.args) ∧
      fetch_page_by_wrapper rb fields table w page =
        Except.ok (ExecResult.statement sql w.args) ∧
      fetch_by_id rb fields table id =
        fetch_by_wrapper rb fields table ((Wrapper.new rb.driver).eq "id" id) ∧
      list rb fields table = list_by_wrapper rb fields table (Wrapper.new rb.driver) ∧
      list_by_ids rb fields table ids =
        list_by_wrapper rb fields table ((Wrapper.new rb.driver).in_array "id" ids) := by
  rcases rb with ⟨driver, plugin⟩
  cases plugin with
  | none =>
    refine ⟨_, rfl, ?_, rfl, rfl, rfl, rfl, rfl, rfl⟩
    by_cases hw : w.sql = ""
    · simp [hw]
    · simp [hw]
  | some p =>
    refine ⟨_, rfl, ?_, rfl, rfl, rfl, rfl, rfl, rfl⟩
    by_cases hw : w.sql = ""
    · simp [hw]
    · simp [hw]

/-! ## Characterization of the SET clause -/

theorem sets_items_length (db : DriverType) : ∀ (f : List (String × Json)) (i : Nat),
    (sets_items db i f).length = f.length := by
  intro f
  induction f with
  | nil => intro i; rfl
  | cons kv rest ih =>
    intro i
    obtain ⟨k, v⟩ := kv
    show (sets_items db i ((k, v) :: rest)).length = rest.length + 1
    rw [show sets_items db i ((k, v) :: rest) =
      (" " ++ k ++ " = " ++ db.stmt_convert i) :: sets_items db (i + 1) rest from rfl]
    simp [ih]

theorem make_sets_loop_spec (db : DriverType) :
    ∀ (entries : List (String × Json)) (sets : String) (args : List Json),
    make_sets_loop db entries sets args =
      (sets ++ strJoin ((sets_items db args.length (set_filter entries)).map fun x => x ++ ","),
       args ++ (set_filter entries).map Prod.snd) := by
  intro entries
  induction entries with
  | nil =>
    intro sets args
    simp [make_sets_loop, set_filter, sets_items, strJoin, strAppend_empty]
  | cons kv rest ih =>
    intro sets args
    obtain ⟨k, v⟩ := kv
    show make_sets_loop db ((k, v) :: rest) sets args = _
    unfold make_sets_loop
    by_cases hnull : v.isNull = true
    · rw [if_pos hnull, ih]
      have hsf : set_filter ((k, v) :: rest) = set_filter rest := by
        unfold set_filter
        rw [List.filter_cons]
        simp [hnull]
      rw [hsf]
    · by_cases hid : k = "id"
      · rw [if_neg hnull, if_pos hid, ih]
        have hsf : set_filter ((k, v) :: rest) = set_filter rest := by
          unfold set_filter
          rw [List.filter_cons]
          simp [hnull, hid]
        rw [hsf]
      · rw [if_neg hnull, if_neg hid, ih]
        have hsf : set_filter ((k, v) :: rest) = (k, v) :: set_filter rest := by
          unfold set_filter
          rw [List.filter_cons]
          simp [hnull, hid]
        rw [hsf]
        simp only [Prod.mk.injEq]
        constructor
        · rw [show (args ++ [v]).length = args.length + 1 by simp]
          rw [show sets_items db args.length ((k, v) :: set_filter rest) =
            (" " ++ k ++ " = " ++ db.stmt_convert args.length) ::
              sets_items db (args.length + 1) (set_filter rest) from rfl]
          simp [strJoin_cons, strAppend_assoc]
        · simp

/-- C6: the SET clause built by `update_by_wrapper` contains no null-valued
field and not the identifier column: it is exactly one ` <col> = <placeholder>`
item per retained field of the value map (`set_filter`, the map's non-null,
non-`id` entries in iteration order), and the SET arguments are those fields'
values in the same order. -/
theorem update_by_wrapper_set_clause (rb : Rbatis) (table : String)
    (m : List (String × Json)) (w : Wrapper) :
    update_by_wrapper rb table (Json.obj m) w =
      Except.ok (ExecResult.statement
        ("UPDATE " ++ table ++ " SET " ++ joinComma (sets_items rb.driver 0 (set_filter m)) ++
          (if w.sql = "" then "" else " WHERE " ++ w.sql))
        ((set_filter m).map Prod.snd ++ (if w.sql = "" then [] else w.args))) ∧
    (set_filter m).all (fun kv => !kv.snd.isNull && !(kv.fst == "id")) = true ∧
    (sets_items rb.driver 0 (set_filter m)).length = (set_filter m).length := by
  refine ⟨?_, ?_, sets_items_length rb.driver (set_filter m) 0⟩
  · have h1 : update_by_wrapper rb table (Json.obj m) w =
        (if w.sql = "" then
          Except.ok (ExecResult.statement
            ("UPDATE " ++ table ++ " SET " ++ strPop (make_sets_loop rb.driver m "" []).fst)
            (make_sets_loop rb.driver m "" []).snd)
        else
          Except.ok (ExecResult.statement
            ("UPDATE " ++ table ++ " SET " ++ strPop (make_sets_loop rb.driver m "" []).fst ++
              " WHERE " ++ w.sql)
            ((make_sets_loop rb.driver m "" []).snd ++ w.args))) := rfl
    rw [h1, make_sets_loop_spec]
    have hsets : strPop ("" ++ strJoin ((sets_items rb.driver (List.length ([] : List Json))
        (set_filter m)).map fun x => x ++ ",")) =
        joinComma (sets_items rb.driver 0 (set_filter m)) := by
      rw [strEmpty_append]
      exact strPop_strJoin_comma (sets_items rb.driver 0 (set_filter m))
    by_cases hw : w.sql = ""
    · rw [if_pos hw, if_pos hw, if_pos hw]
      rw [hsets]
      simp [strAppend_empty, strEmpty_append]
    · rw [if_neg hw, if_neg hw, if_neg hw]
      rw [hsets]
      simp [strAppend_assoc, strEmpty_append]
  · rw [List.all_eq_true]
    intro kv hkv
    unfold set_filter at hkv
    exact (List.mem_filter.mp hkv).2

/-! ## What `trimStartMatches` removes -/

theorem isPrefixOf_drop : ∀ (p s : List Char), p.isPrefixOf s = true →
    s = p ++ s.drop p.length := by
  intro p
  induction p with
  | nil => intro s h; simp
  | cons a as ih =>
    intro s h
    cases s with
    | nil => exact absurd h (by simp [List.isPrefixOf])
    | cons b bs =>
      rw [show (a :: as).isPrefixOf (b :: bs) = (a == b && as.isPrefixOf bs) from rfl,
        Bool.and_eq_true] at h
      obtain ⟨h1, h2⟩ := h
      have hab : a = b := eq_of_beq h1
      subst hab
      show a :: bs = a :: (as ++ bs.drop as.length)
      rw [← ih bs h2]

theorem dropPrefixAll_spec (pat : List Char) (hpat : pat ≠ []) :
    ∀ (fuel : Nat) (s : List Char), s.length ≤ fuel →
      ∃ n, s = repList pat n ++ dropPrefixAll fuel s pat ∧
        pat.isPrefixOf (dropPrefixAll fuel s pat) = false := by
  intro fuel
  induction fuel with
  | zero =>
    intro s hs
    have hnil : s = [] := List.eq_nil_of_length_eq_zero (Nat.le_zero.mp hs)
    subst hnil
    refine ⟨0, by simp [dropPrefixAll, repList], ?_⟩
    cases pat with
    | nil => exact absurd rfl hpat
    | cons a as => rfl
  | succ f ih =>
    intro s hs
    unfold dropPrefixAll
    by_cases h : pat ≠ [] ∧ pat.isPrefixOf s = true
    · rw [if_pos h]
      have hdrop := isPrefixOf_drop pat s h.2
      have hlen : (s.drop pat.length).length ≤ f := by
        rw [List.length_drop]
        have hp : 0 < pat.length := List.length_pos.mpr hpat
        have hsl : pat.length + (s.drop pat.length).length = s.length := by
          conv_rhs => rw [hdrop]
          simp [List.length_append]
        omega
      obtain ⟨n, h1, h2⟩ := ih (s.drop pat.length) hlen
      refine ⟨n + 1, ?_, h2⟩
      show s = pat ++ repList pat n ++ dropPrefixAll f (s.drop pat.length) pat
      rw [List.append_assoc, ← h1]
      exact hdrop
    · rw [if_neg h]
      refine ⟨0, by simp [repList], ?_⟩
      cases hb : pat.isPrefixOf s with
      | false => rfl
      | true => exact absurd ⟨hpat, hb⟩ h

/-- C8 counterexample: the caller-supplied fragment `AND a = 1` is normalized
by `make_where_sql` to ` WHERE a = 1 `, which contains no parenthesis at all,
so the normalized clause is not the stripped fragment enclosed in
parentheses after the WHERE keyword. -/
theorem make_where_sql_no_parens_counterexample :
    make_where_sql "AND a = 1" = " WHERE a = 1 " ∧
    (make_where_sql "AND a = 1").data.count '(' = 0 ∧
    (make_where_sql "AND a = 1").data.count ')' = 0 ∧
    make_where_sql "AND AND a = 1" = " WHERE a = 1 " := by
  refine ⟨by decide, by decide, by decide, by decide⟩

/-- C8 amended: `make_where_sql` trims leading whitespace from the
caller-supplied fragment, then strips *all* leading `AND ` connectives, then
all leading `OR ` connectives, and produces ` WHERE ` followed by the
stripped fragment and a trailing space; the fragment is not parenthesized. -/
theorem make_where_sql_strips_connectives (arg : String) :
    ∃ (n m : Nat) (core : List Char),
      (trim_start arg).data = repList "AND ".data n ++ (repList "OR ".data m ++ core) ∧
      "AND ".data.isPrefixOf (repList "OR ".data m ++ core) = false ∧
      "OR ".data.isPrefixOf core = false ∧
      make_where_sql arg = " WHERE " ++ String.mk core ++ " " := by
  obtain ⟨n, h1, h2⟩ := dropPrefixAll_spec "AND ".data (by decide)
    (trim_start arg).data.length (trim_start arg).data le_rfl
  obtain ⟨mm, g1, g2⟩ := dropPrefixAll_spec "OR ".data (by decide)
    (dropPrefixAll (trim_start arg).data.length (trim_start arg).data "AND ".data).length
    (dropPrefixAll (trim_start arg).data.length (trim_start arg).data "AND ".data) le_rfl
  refine ⟨n, mm,
    dropPrefixAll
      (dropPrefixAll (trim_start arg).data.length (trim_start arg).data "AND ".data).length
      (dropPrefixAll (trim_start arg).data.length (trim_start arg).data "AND ".data)
      "OR ".data, ?_, ?_, g2, ?_⟩
  · exact h1.trans (congrArg (fun t => repList "AND ".data n ++ t) g1)
  · rw [← g1]
    exact h2
  · rfl

/-! ## Characterization of `save_batch` -/

theorem batch_groups_length (db : DriverType) :
    ∀ (maps : List (List (String × Json))) (i : Nat),
    (batch_groups db i maps).length = maps.length := by
  intro maps
  induction maps with
  | nil => intro i; rfl
  | cons m rest ih =>
    intro i
    show (batch_groups db i (m :: rest)).length = rest.length + 1
    rw [show batch_groups db i (m :: rest) =
      (joinComma ((row_frags db i m).map Prod.fst), (row_frags db i m).map Prod.snd)
        :: batch_groups db (i + m.length) rest from rfl]
    simp [ih]

theorem paren_comma_split (s : String) : "(" ++ s ++ ")," = ("(" ++ s ++ ")") ++ "," := by
  apply String.ext
  simp only [strData_append, List.append_assoc]
  rfl

theorem save_batch_loop_spec (db : DriverType) :
    ∀ (maps : List (List (String × Json))) (index : Nat) (value_arr : String)
      (arg_arr : List Json) (f : String), f ≠ "" →
    save_batch_loop db (maps.map Json.obj) value_arr arg_arr f index =
      .ok (value_arr ++ strJoin ((batch_groups db index maps).map fun g => "(" ++ g.fst ++ "),"),
           arg_arr ++ ((batch_groups db index maps).map Prod.snd).flatten,
           f, index + (maps.map List.length).sum) := by
  intro maps
  induction maps with
  | nil =>
    intro index value_arr arg_arr f hf
    simp [save_batch_loop, batch_groups, strJoin, strAppend_empty]
  | cons m rest ih =>
    intro index value_arr arg_arr f hf
    have hstep : save_batch_loop db ((m :: rest).map Json.obj) value_arr arg_arr f index =
        (do
          let fields ← if f = "" then make_fields m else pure f
          let r ← make_sql_arg index db m
          save_batch_loop db (rest.map Json.obj) (value_arr ++ "(" ++ r.fst ++ "),")
            (arg_arr ++ r.snd.fst) fields r.snd.snd : Except String _) := rfl
    rw [hstep, if_neg hf, make_sql_arg_spec]
    show save_batch_loop db (rest.map Json.obj)
        (value_arr ++ "(" ++ joinComma ((row_frags db index m).map Prod.fst) ++ "),")
        (arg_arr ++ (row_frags db index m).map Prod.snd) f (index + m.length) = _
    rw [ih (index + m.length) _ _ f hf]
    simp only [Except.ok.injEq, Prod.mk.injEq]
    rw [show batch_groups db index (m :: rest) =
      (joinComma ((row_frags db index m).map Prod.fst), (row_frags db index m).map Prod.snd)
        :: batch_groups db (index + m.length) rest from rfl]
    refine ⟨?_, ?_, trivial, ?_⟩
    · simp [strJoin_cons, strAppend_assoc]
    · simp
    · rw [show (m :: rest).map List.length = m.length :: rest.map List.length from rfl,
        List.sum_cons]
      omega

/-- C2 counterexample: on the slice `[{}, {a: 1}]` (a first entity with an
empty value map), `save_batch` computes the column list `a` from the *second*
entity, not from the first entity's value map (whose column list is the empty
string), refuting the claim for arbitrary non-empty slices. -/
theorem save_batch_first_entity_counterexample :
    save_batch ⟨DriverType.mysql, none⟩ "t" [Json.obj [], Json.obj [("a", Json.num 1)]] =
      Except.ok (ExecResult.statement "INSERT INTO t (a) VALUES (),( ? )" [Json.num 1]) ∧
    make_fields [] = Except.ok "" := by
  exact ⟨rfl, rfl⟩

/-- C2 amended: for every non-empty slice of entities serializing to objects
whose *first* entity's value map yields a non-empty column list, `save_batch`
builds exactly one INSERT whose column list is computed from the first
entity's value map, appends one parenthesized placeholder group per entity
(`batch_groups`), threads a single running placeholder index across all rows
(each group starts at the index where the previous row's group stopped, and
the index never resets), and concatenates the per-row argument vectors in
row order.  (When the first entity's value map yields the empty column list,
the code instead fills the column list from the first later entity whose
column list is non-empty.) -/
theorem save_batch_single_statement (rb : Rbatis) (table : String)
    (m₁ : List (String × Json)) (rest : List (List (String × Json))) (f₁ : String)
    (hf : make_fields m₁ = Except.ok f₁) (hne : f₁ ≠ "") :
    save_batch rb table ((m₁ :: rest).map Json.obj) =
      Except.ok (ExecResult.statement
        ("INSERT INTO " ++ table ++ " (" ++ f₁ ++ ") VALUES " ++
          joinComma ((batch_groups rb.driver 0 (m₁ :: rest)).map fun g => "(" ++ g.fst ++ ")"))
        (((batch_groups rb.driver 0 (m₁ :: rest)).map Prod.snd).flatten)) ∧
    (batch_groups rb.driver 0 (m₁ :: rest)).length = (m₁ :: rest).length := by
  refine ⟨?_, batch_groups_length rb.driver (m₁ :: rest) 0⟩
  have hv : ("" ++ "(" ++ joinComma ((row_frags rb.driver 0 m₁).map Prod.fst) ++ "),") ++
      strJoin ((batch_groups rb.driver (0 + m₁.length) rest).map fun g => "(" ++ g.fst ++ "),") =
      strJoin (((joinComma ((row_frags rb.driver 0 m₁).map Prod.fst),
        (row_frags rb.driver 0 m₁).map Prod.snd)
          :: batch_groups rb.driver (0 + m₁.length) rest).map fun g => "(" ++ g.fst ++ "),") := by
    simp [strJoin_cons, strAppend_assoc, strEmpty_append]
  have hmapsplit : ∀ groups : List (String × List Json),
      (groups.map fun g => "(" ++ g.fst ++ "),") =
        ((groups.map fun g => "(" ++ g.fst ++ ")").map fun x => x ++ ",") := by
    intro groups
    rw [List.map_map]
    apply List.map_congr_left
    intro g _
    exact paren_comma_split g.fst
  have h1 : save_batch rb table ((m₁ :: rest).map Json.obj) =
      (do
        let r ← save_batch_loop rb.driver ((m₁ :: rest).map Json.obj) "" [] "" 0
        Except.ok (ExecResult.statement
          ("INSERT INTO " ++ table ++ " (" ++ r.snd.snd.fst ++ ") VALUES " ++ strPop r.fst)
          r.snd.fst) : Except String ExecResult) := rfl
  have h2 : save_batch_loop rb.driver ((m₁ :: rest).map Json.obj) "" [] "" 0 =
      (do
        let fields ← make_fields m₁
        let r ← make_sql_arg 0 rb.driver m₁
        save_batch_loop rb.driver (rest.map Json.obj) ("" ++ "(" ++ r.fst ++ "),")
          ([] ++ r.snd.fst) fields r.snd.snd : Except String _) := rfl
  rw [h1, h2, hf, make_sql_arg_spec]
  show (do
      let r ← save_batch_loop rb.driver (rest.map Json.obj)
        ("" ++ "(" ++ joinComma ((row_frags rb.driver 0 m₁).map Prod.fst) ++ "),")
        ([] ++ (row_frags rb.driver 0 m₁).map Prod.snd) f₁ (0 + m₁.length)
      Except.ok (ExecResult.statement
        ("INSERT INTO " ++ table ++ " (" ++ r.snd.snd.fst ++ ") VALUES " ++ strPop r.fst)
        r.snd.fst) : Except String ExecResult) = _
  rw [save_batch_loop_spec rb.driver rest (0 + m₁.length) _ _ f₁ hne]
  show Except.ok (ExecResult.statement
      ("INSERT INTO " ++ table ++ " (" ++ f₁ ++ ") VALUES " ++
        strPop (("" ++ "(" ++ joinComma ((row_frags rb.driver 0 m₁).map Prod.fst) ++ "),") ++
          strJoin ((batch_groups rb.driver (0 + m₁.length) rest).map fun g =>
            "(" ++ g.fst ++ "),")))
      (([] ++ (row_frags rb.driver 0 m₁).map Prod.snd) ++
        ((batch_groups rb.driver (0 + m₁.length) rest).map Prod.snd).flatten)) = _
  rw [hv, hmapsplit, strPop_strJoin_comma]
  rw [show batch_groups rb.driver 0 (m₁ :: rest) =
    (joinComma ((row_frags rb.driver 0 m₁).map Prod.fst), (row_frags rb.driver 0 m₁).map Prod.snd)
      :: batch_groups rb.driver (0 + m₁.length) rest from rfl]
  simp

theorem save_batch_single_statement_witness :
    save_batch ⟨DriverType.mysql, none⟩ "t"
        [Json.obj [("a", Json.num 1)], Json.obj [("a", Json.num 2)]] =
      Except.ok (ExecResult.statement
        ("INSERT INTO " ++ "t" ++ " (" ++ "a" ++ ") VALUES " ++
          joinComma ((batch_groups DriverType.mysql 0
            [[("a", Json.num 1)], [("a", Json.num 2)]]).map fun g => "(" ++ g.fst ++ ")"))
        (((batch_groups DriverType.mysql 0
          [[("a", Json.num 1)], [("a", Json.num 2)]]).map Prod.snd).flatten)) ∧
    (batch_groups DriverType.mysql 0 [[("a", Json.num 1)], [("a", Json.num 2)]]).length =
      ([[("a", Json.num 1)], [("a", Json.num 2)]] : List (List (String × Json))).length :=
  save_batch_single_statement ⟨DriverType.mysql, none⟩ "t" [("a", Json.num 1)]
    [[("a", Json.num 2)]] "a" rfl (by decide)
